import Mathlib

/-!
Verification of the stock-think frontend core against its specification.

The development shallowly embeds the logic of
`my-nextjs-frontend/app/api/trade/route.tsx` (the `POST` handler's
first-brace extraction) and `my-nextjs-frontend/app/page.tsx`
(`parseOutput`, `handleTrade`, the polling `useEffect`, `filteredHistory`
and the `PortfolioChart` segment colouring) as executable Lean
definitions, and proves or refutes the specification's claims about them.
-/

namespace StockThink

/-! ## JSON values

`JVal` models the runtime values produced by JavaScript's `JSON.parse`:
null, booleans, numbers (modelled as rationals), strings, arrays and
objects (ordered key/value lists, later duplicate keys win on lookup). -/

inductive JVal where
  | null : JVal
  | bool (b : Bool) : JVal
  | num (q : ℚ) : JVal
  | str (s : String) : JVal
  | arr (elems : List JVal) : JVal
  | obj (fields : List (String × JVal)) : JVal

/-! ## A model of JavaScript `JSON.parse`

Recursive-descent parser over the character list of the input, following
the JSON grammar enforced by `JSON.parse`: optional whitespace around a
single value, objects/arrays/strings/numbers/`true`/`false`/`null`,
string escapes, and the strict number grammar (no leading `+`, no bare
leading zeros, fraction and exponent each need at least one digit).
Recursion over values is paid for by a fuel argument; `jsonParse` supplies
one unit of fuel per input character plus one, which is enough because
every recursive call strictly consumes input. -/

def isJsonWs (c : Char) : Bool :=
  c = ' ' || c = '\t' || c = '\n' || c = '\r'

def skipWs : List Char → List Char
  | [] => []
  | c :: cs => if isJsonWs c then skipWs cs else c :: cs

def isDigit (c : Char) : Bool :=
  48 ≤ c.toNat && c.toNat ≤ 57

def digitVal (c : Char) : Nat :=
  c.toNat - 48

/-- Splits off the longest digit prefix. -/
def takeDigits (cs : List Char) : List Char × List Char :=
  match cs with
  | [] => ([], [])
  | c :: tl =>
    if isDigit c then
      match takeDigits tl with
      | (ds, tail) => (c :: ds, tail)
    else ([], cs)

def digitsToNat (ds : List Char) : Nat :=
  ds.foldl (fun acc c => 10 * acc + digitVal c) 0

/-- The value of one hexadecimal digit, lower or upper case. -/
def hexVal (c : Char) : Option Nat :=
  let n := c.toNat
  if isDigit c then some (digitVal c)
  else if 97 ≤ n && n ≤ 102 then some (n - 87)
  else if 65 ≤ n && n ≤ 70 then some (n - 55)
  else none

/-- Scans the body of a JSON string literal (the opening quote already
consumed), handling the escape sequences `JSON.parse` accepts, up to and
including the closing quote. -/
def scanString : List Char → Option (List Char × List Char)
  | [] => none
  | '"' :: rest => some ([], rest)
  | '\\' :: esc =>
    match esc with
    | '"' :: rest => (scanString rest).map (fun p => ('"' :: p.1, p.2))
    | '\\' :: rest => (scanString rest).map (fun p => ('\\' :: p.1, p.2))
    | '/' :: rest => (scanString rest).map (fun p => ('/' :: p.1, p.2))
    | 'b' :: rest => (scanString rest).map (fun p => (Char.ofNat 8 :: p.1, p.2))
    | 'f' :: rest => (scanString rest).map (fun p => (Char.ofNat 12 :: p.1, p.2))
    | 'n' :: rest => (scanString rest).map (fun p => ('\n' :: p.1, p.2))
    | 'r' :: rest => (scanString rest).map (fun p => ('\r' :: p.1, p.2))
    | 't' :: rest => (scanString rest).map (fun p => ('\t' :: p.1, p.2))
    | 'u' :: h1 :: h2 :: h3 :: h4 :: rest =>
      match hexVal h1, hexVal h2, hexVal h3, hexVal h4 with
      | some a, some b, some c, some d =>
        (scanString rest).map
          (fun p => (Char.ofNat (((a * 16 + b) * 16 + c) * 16 + d) :: p.1, p.2))
      | _, _, _, _ => none
    | _ => none
  | c :: rest =>
    if c.toNat < 32 then none
    else (scanString rest).map (fun p => (c :: p.1, p.2))

/-- The rational `mant * 10 ^ e10`, written so that an integer result is
built without rational arithmetic. -/
def decimalValue (mant e10 : Int) : ℚ :=
  if 0 ≤ e10 then ((mant * 10 ^ e10.toNat : Int) : ℚ)
  else mkRat mant (10 ^ (-e10).toNat)

/-- After the digits of the integer part of a JSON number, parses the
optional fraction and exponent and produces the number's value. -/
def scanNumberTail (sign : Int) (intVal : Nat) (cs : List Char) :
    Option (ℚ × List Char) :=
  let fr : Option (List Char × List Char) :=
    match cs with
    | '.' :: rest =>
      match takeDigits rest with
      | ([], _) => none
      | (ds, rest2) => some (ds, rest2)
    | _ => some ([], cs)
  match fr with
  | none => none
  | some (fracDs, cs2) =>
    let mant : Int := sign * (intVal * 10 ^ fracDs.length + digitsToNat fracDs)
    match cs2 with
    | 'e' :: rest | 'E' :: rest =>
      let (esign, rest2) :=
        match rest with
        | '+' :: r => ((1 : Int), r)
        | '-' :: r => ((-1 : Int), r)
        | _ => ((1 : Int), rest)
      match takeDigits rest2 with
      | ([], _) => none
      | (eds, rest3) =>
        some (decimalValue mant (esign * digitsToNat eds - fracDs.length), rest3)
    | _ => some (decimalValue mant (-(fracDs.length : Int)), cs2)

/-- Parses the JSON number grammar starting at the head of the input,
returning its rational value. A leading zero must stand alone. -/
def scanNumber (cs : List Char) : Option (ℚ × List Char) :=
  let (sign, cs1) :=
    match cs with
    | '-' :: rest => ((-1 : Int), rest)
    | _ => ((1 : Int), cs)
  match cs1 with
  | '0' :: rest2 => scanNumberTail sign 0 rest2
  | c :: _ =>
    if isDigit c then
      let (ds, rest2) := takeDigits cs1
      scanNumberTail sign (digitsToNat ds) rest2
    else none
  | [] => none

mutual

/-- Parses one JSON value at the head of the input (leading whitespace
already skipped). -/
def parseValue : Nat → List Char → Option (JVal × List Char)
  | 0, _ => none
  | Nat.succ fuel, cs =>
    match cs with
    | '{' :: rest =>
      let rest1 := skipWs rest
      match rest1 with
      | '}' :: rest2 => some (JVal.obj [], rest2)
      | _ =>
        (parseFields fuel rest1).map (fun p => (JVal.obj p.1, p.2))
    | '[' :: rest =>
      let rest1 := skipWs rest
      match rest1 with
      | ']' :: rest2 => some (JVal.arr [], rest2)
      | _ =>
        (parseElems fuel rest1).map (fun p => (JVal.arr p.1, p.2))
    | '"' :: rest =>
      (scanString rest).map (fun p => (JVal.str (String.mk p.1), p.2))
    | 't' :: 'r' :: 'u' :: 'e' :: rest => some (JVal.bool true, rest)
    | 'f' :: 'a' :: 'l' :: 's' :: 'e' :: rest => some (JVal.bool false, rest)
    | 'n' :: 'u' :: 'l' :: 'l' :: rest => some (JVal.null, rest)
    | _ =>
      (scanNumber cs).map (fun p => (JVal.num p.1, p.2))

/-- Parses the non-empty member list of a JSON object, consuming the
closing brace. The input starts at the (whitespace-skipped) first key. -/
def parseFields : Nat → List Char → Option (List (String × JVal) × List Char)
  | 0, _ => none
  | Nat.succ fuel, cs =>
    match cs with
    | '"' :: rest =>
      match scanString rest with
      | none => none
      | some (key, rest1) =>
        match skipWs rest1 with
        | ':' :: rest2 =>
          match parseValue fuel (skipWs rest2) with
          | none => none
          | some (v, rest3) =>
            match skipWs rest3 with
            | ',' :: rest4 =>
              (parseFields fuel (skipWs rest4)).map
                (fun p => ((String.mk key, v) :: p.1, p.2))
            | '}' :: rest4 => some ([(String.mk key, v)], rest4)
            | _ => none
        | _ => none
    | _ => none

/-- Parses the non-empty element list of a JSON array, consuming the
closing bracket. -/
def parseElems : Nat → List Char → Option (List JVal × List Char)
  | 0, _ => none
  | Nat.succ fuel, cs =>
    match parseValue fuel cs with
    | none => none
    | some (v, rest) =>
      match skipWs rest with
      | ',' :: rest1 =>
        (parseElems fuel (skipWs rest1)).map (fun p => (v :: p.1, p.2))
      | ']' :: rest1 => some ([v], rest1)
      | _ => none

end

/-- Model of JavaScript `JSON.parse`: parse one value surrounded by
optional whitespace; `none` models the thrown `SyntaxError`. -/
def jsonParse (s : String) : Option JVal :=
  let cs := skipWs s.data
  match parseValue (cs.length + 1) cs with
  | some (v, rest) => if skipWs rest = [] then some v else none
  | none => none

/-! ## The trade API route (`app/api/trade/route.tsx`, `POST`)

On engine success the handler locates the first `{` with
`rawOutput.indexOf` and returns the substring from there to end-of-text,
without validating it; if no `{` exists it responds with status 500 and a
fixed error message. An engine failure is forwarded as a 500 whose error
text is the captured diagnostics. -/

/-- The suffix of the character list starting at the first occurrence of
the opening brace, mirroring `indexOf` plus `substring`. -/
def firstBraceSuffix : List Char → Option (List Char)
  | [] => none
  | c :: cs => if c = '{' then some (c :: cs) else firstBraceSuffix cs

def routeNoJsonMsg : String :=
  "Invalid or incomplete output from the AI trading script."

/-- Model of the `POST` handler: `Except.ok` is a 200 response carrying
the `output` field, `Except.error` a 500 response carrying the `error`
field. -/
def routePOST (engine : Except String String) : Except String String :=
  match engine with
  | .error e => .error e
  | .ok raw =>
    match firstBraceSuffix raw.data with
    | none => .error routeNoJsonMsg
    | some cs => .ok (String.mk cs)

/-! ## The page component (`app/page.tsx`)

`PageState` collects the React state cells of `Home` that the
specification's Snapshot, Series and error reporting live in. Fields
parsed from JSON are kept as `JVal`, since `parseOutput` installs
whatever values the payload carries without further validation. -/

structure PageState where
  reasoning : JVal
  decisions : JVal
  portfolioSummary : JVal
  portfolioPositions : JVal
  history : JVal
  tradeHistory : JVal
  loading : Bool
  error : Option String

/-- The `useState` initial values of `Home`. -/
def initialPageState : PageState :=
  { reasoning := .str "", decisions := .arr [], portfolioSummary := .null,
    portfolioPositions := .arr [], history := .arr [], tradeHistory := .arr [],
    loading := true, error := none }

/-- JavaScript truthiness of a parsed JSON value (`NaN` cannot occur in
`JSON.parse` output). -/
def jsTruthy : JVal → Bool
  | .null => false
  | .bool b => b
  | .num q => decide (q ≠ 0)
  | .str s => decide (s ≠ "")
  | .arr _ => true
  | .obj _ => true

/-- Object property lookup; with duplicate keys `JSON.parse` keeps the
later one, hence the last match wins. -/
def jsLookup (fields : List (String × JVal)) (k : String) : Option JVal :=
  ((fields.filter (fun f => f.1 == k)).getLast?).map (fun f => f.2)

/-- Property access `v.k`: `none` models the `TypeError` thrown on
`null`; on a non-null non-object it evaluates to `undefined`, modelled as
`some none`. -/
def jsMember (v : JVal) (k : String) : Option (Option JVal) :=
  match v with
  | .null => none
  | .obj fields => some (jsLookup fields k)
  | _ => some none

/-- The JavaScript `a || b` default: the looked-up value if present and
truthy, the default otherwise. -/
def jsOrDefault (v : Option JVal) (d : JVal) : JVal :=
  match v with
  | some w => if jsTruthy w then w else d
  | none => d

def parseFailMsg : String :=
  "Failed to parse the data from the AI. The output might be malformed."

/-- The `catch` branch of `parseOutput`: record the parse error and clear
every display field except `tradeHistory`, which the code does not
reset. -/
def clearOnParseFailure (st : PageState) : PageState :=
  { st with
    error := some parseFailMsg,
    reasoning := .str "", decisions := .arr [], portfolioSummary := .null,
    portfolioPositions := .arr [], history := .arr [] }

/-- Model of `parseOutput`: `JSON.parse` the output, then install each
recognized key with its `||` default; any thrown error (syntax error, or
the `TypeError` of property access on a `null` payload) takes the `catch`
branch. -/
def parseOutput (st : PageState) (output : String) : PageState :=
  match jsonParse output with
  | none => clearOnParseFailure st
  | some data =>
    match jsMember data "reasoning", jsMember data "decisions",
          jsMember data "portfolio_summary", jsMember data "portfolio_positions",
          jsMember data "history", jsMember data "trade_history" with
    | some r, some d, some ps, some pp, some h, some th =>
      { st with
        reasoning := jsOrDefault r (.str "No reasoning provided."),
        decisions := jsOrDefault d (.arr []),
        portfolioSummary := jsOrDefault ps .null,
        portfolioPositions := jsOrDefault pp (.arr []),
        history := jsOrDefault h (.arr []),
        tradeHistory := jsOrDefault th (.arr []) }
    | _, _, _, _, _, _ => clearOnParseFailure st

def fetchFailMsg : String := "Failed to fetch trading decision."

/-- The synchronous prefix of `handleTrade`, up to and including issuing
the fetch: `setLoading(true); setError(null)`. -/
def tickStart (st : PageState) : PageState :=
  { st with loading := true, error := none }

/-- The continuation of `handleTrade` once the route's response arrives:
on a 200, `parseOutput(data.output)`; on failure, the thrown error's
message (the route's `error` field, or the fixed fallback when that is
empty) is recorded; `finally` clears `loading` on both paths. -/
def completeFetch (st : PageState) (resp : Except String String) : PageState :=
  match resp with
  | .ok output =>
    let st1 := parseOutput st output
    { st1 with loading := false }
  | .error msg =>
    { st with
      error := some (if msg = "" then fetchFailMsg else msg),
      loading := false }

/-- One full cycle run to completion with no interleaved tick: the tick,
the route handling the engine result, and the response continuation. -/
def runCycle (st : PageState) (engine : Except String String) : PageState :=
  completeFetch (tickStart st) (routePOST engine)

/-! ## The polling scheduler (`useEffect` + `setInterval`)

Each timer tick calls `handleTrade`, whose body issues a fetch
unconditionally — nothing consults `loading` before fetching. The
scheduler model counts issued Adapter invocations and in-flight fetches
so overlap behaviour can be stated. -/

structure SchedState where
  page : PageState
  inFlight : Nat
  invocations : Nat

def initialSchedState : SchedState :=
  { page := initialPageState, inFlight := 0, invocations := 0 }

/-- A timer tick: `handleTrade` runs its synchronous prefix and issues a
fetch, i.e. one more Adapter invocation, whatever the current state. -/
def schedTick (s : SchedState) : SchedState :=
  { page := tickStart s.page, inFlight := s.inFlight + 1,
    invocations := s.invocations + 1 }

/-- Delivery of one outstanding response. -/
def schedComplete (s : SchedState) (engine : Except String String) : SchedState :=
  { page := completeFetch s.page (routePOST engine),
    inFlight := s.inFlight - 1, invocations := s.invocations }

/-! ## Windowing (`filteredHistory`) and the chart transform -/

structure HistoryPoint where
  timestamp : String
  value : ℚ
deriving DecidableEq

inductive TimeRange where
  | all : TimeRange
  | h72 : TimeRange
deriving DecidableEq

/-- Model of `filteredHistory`: for the `'72h'` range, keep the points
whose `new Date(point.timestamp)` is at or after `Date.now()` minus 72
hours. `jsDate` models `new Date` on a string, `none` standing for an
invalid date, whose comparison (`NaN >= cutoff`) is false. -/
def filteredHistory (jsDate : String → Option Int) (now : Int)
    (r : TimeRange) (history : List HistoryPoint) : List HistoryPoint :=
  match r with
  | .h72 =>
    let seventyTwoHoursAgo := now - 72 * 60 * 60 * 1000
    history.filter (fun point =>
      match jsDate point.timestamp with
      | some t => decide (seventyTwoHoursAgo ≤ t)
      | none => false)
  | .all => history

/-- The `LastNHours` window of the specification, generalizing the code's
cutoff expression `Date.now() - 72 * 60 * 60 * 1000` from 72 to `n`. -/
def windowLastNHours (jsDate : String → Option Int) (now : Int) (n : Nat)
    (history : List HistoryPoint) : List HistoryPoint :=
  history.filter (fun point =>
    match jsDate point.timestamp with
    | some t => decide (now - n * 60 * 60 * 1000 ≤ t)
    | none => false)

inductive Trend where
  | up : Trend
  | down : Trend
  | flat : Trend
deriving DecidableEq

/-- The `segment.borderColor` callback of `PortfolioChart`: green when
the value strictly increases across the segment, red when it strictly
decreases, grey otherwise. -/
def segmentTrend (y1 y2 : ℚ) : Trend :=
  if y1 < y2 then .up else if y2 < y1 then .down else .flat

/-- The dataset the chart draws: `data.map(point => ({x: new
Date(point.timestamp), y: point.value}))`. -/
def chartPoints (jsDate : String → Option Int) (data : List HistoryPoint) :
    List (Option Int × ℚ) :=
  data.map (fun point => (jsDate point.timestamp, point.value))

/-- The trend annotation of each adjacent pair of chart points, in input
order. -/
def renderSegments (data : List HistoryPoint) : List Trend :=
  (data.zip data.tail).map (fun pq => segmentTrend pq.1.value pq.2.value)

/-! ## Concrete fixtures used by witnesses and counterexamples -/

/-- A history point object as the engine reports it inside `history`. -/
def historyPointJson (t : String) (v : ℚ) : JVal :=
  JVal.obj [("timestamp", JVal.str t), ("value", JVal.num v)]

/-- A page state whose Series already holds the two points of the
specification's append example. -/
def stateWithSeries : PageState :=
  { initialPageState with
    history := JVal.arr [historyPointJson "t1" 100, historyPointJson "t2" 105] }

/-- The engine-reported delta of the specification's append example, as
raw JSON text. -/
def rawDelta : String :=
  "\x7b\"history\":[\x7b\"timestamp\":\"t2\",\"value\":110\x7d,\x7b\"timestamp\":\"t3\",\"value\":108\x7d]\x7d"

/-! ## Supporting lemmas -/

/-- Prepending brace-free text does not move the first-brace suffix. -/
theorem firstBraceSuffix_append (p q : List Char) (h : ∀ c ∈ p, c ≠ '{') :
    firstBraceSuffix (p ++ q) = firstBraceSuffix q := by
  induction p with
  | nil => rfl
  | cons c cs ih =>
    simp only [List.cons_append, firstBraceSuffix]
    rw [if_neg (h c (List.mem_cons_self c cs))]
    exact ih (fun d hd => h d (List.mem_cons_of_mem c hd))

/-! ## Claim C1 -/

/-- C1 counterexample: on the valid JSON object `\x7b\x7d` extraction
succeeds, but the absent `reasoning` key defaults to the placeholder text
`"No reasoning provided."`, not to empty text as the claim states. -/
theorem C1_counterexample :
    (runCycle initialPageState (Except.ok "\x7b\x7d")).error = none ∧
    (runCycle initialPageState (Except.ok "\x7b\x7d")).reasoning =
      JVal.str "No reasoning provided." ∧
    (runCycle initialPageState (Except.ok "\x7b\x7d")).reasoning ≠ JVal.str "" :=
  ⟨rfl, rfl, by intro h; injection h with h2; exact absurd h2 (by decide)⟩

/-- C1 (amended): for every raw text whose substring from the first
brace parses as a JSON object, extraction succeeds (no error is
recorded, loading clears), and every absent recognized key maps to its
code default: the placeholder text `"No reasoning provided."` for
`reasoning`, the empty array for `decisions`, `portfolio_positions`,
`history` and `trade_history`, and `null` (absent mapping) for
`portfolio_summary`. -/
theorem C1_defaults (st : PageState) (raw : String) (cs : List Char)
    (fields : List (String × JVal))
    (h1 : firstBraceSuffix raw.data = some cs)
    (h2 : jsonParse (String.mk cs) = some (JVal.obj fields)) :
    (runCycle st (Except.ok raw)).error = none ∧
    (runCycle st (Except.ok raw)).loading = false ∧
    (jsLookup fields "reasoning" = none →
      (runCycle st (Except.ok raw)).reasoning = JVal.str "No reasoning provided.") ∧
    (jsLookup fields "decisions" = none →
      (runCycle st (Except.ok raw)).decisions = JVal.arr []) ∧
    (jsLookup fields "portfolio_summary" = none →
      (runCycle st (Except.ok raw)).portfolioSummary = JVal.null) ∧
    (jsLookup fields "portfolio_positions" = none →
      (runCycle st (Except.ok raw)).portfolioPositions = JVal.arr []) ∧
    (jsLookup fields "history" = none →
      (runCycle st (Except.ok raw)).history = JVal.arr []) ∧
    (jsLookup fields "trade_history" = none →
      (runCycle st (Except.ok raw)).tradeHistory = JVal.arr []) := by
  simp only [runCycle, routePOST, h1, completeFetch, tickStart, parseOutput, h2,
    jsMember]
  refine ⟨trivial, trivial, ?_, ?_, ?_, ?_, ?_, ?_⟩ <;>
    (intro hl; simp [hl, jsOrDefault])

/-- C1 witness: the amended theorem applied to the empty object. -/
theorem C1_witness :
    (runCycle initialPageState (Except.ok "\x7b\x7d")).loading = false ∧
    (runCycle initialPageState (Except.ok "\x7b\x7d")).history = JVal.arr [] := by
  have h := C1_defaults initialPageState "\x7b\x7d" (['{', '}']) [] rfl rfl
  exact ⟨h.2.1, h.2.2.2.2.2.2.1 rfl⟩

/-! ## Claim C2 -/

/-- C2 counterexample: on the non-empty unparseable text `"garbage"`
extraction fails (an error is recorded, with the route's message rather
than the reason `"empty output"`) and there is no opaque-text fallback:
`reasoning` is not set to the full input. -/
theorem C2_counterexample :
    (runCycle initialPageState (Except.ok "garbage")).error = some routeNoJsonMsg ∧
    (runCycle initialPageState (Except.ok "garbage")).reasoning ≠
      JVal.str "garbage" ∧
    routeNoJsonMsg ≠ "empty output" :=
  ⟨rfl, by intro h; injection h with h2; exact absurd h2 (by decide), by decide⟩

/-- C2 (amended): extraction fails with the fixed route message exactly
when the raw text contains no brace (including empty and whitespace-only
text — there is no distinct `"empty output"` failure); when the text
contains a brace but its first-brace substring is not valid JSON, the
parse error is recorded and the display fields are cleared. No input
takes an opaque-text fallback. -/
theorem C2_failure_modes (st : PageState) (raw : String) :
    (firstBraceSuffix raw.data = none →
      runCycle st (Except.ok raw) =
        { tickStart st with error := some routeNoJsonMsg, loading := false }) ∧
    (∀ cs, firstBraceSuffix raw.data = some cs → jsonParse (String.mk cs) = none →
      runCycle st (Except.ok raw) =
        { clearOnParseFailure (tickStart st) with loading := false }) ∧
    routeNoJsonMsg ≠ "empty output" := by
  refine ⟨?_, ?_, by decide⟩
  · intro h
    simp only [runCycle, routePOST, h, completeFetch]
    simp [routeNoJsonMsg]
  · intro cs h1 h2
    simp only [runCycle, routePOST, h1, completeFetch, parseOutput, h2]

/-- C2 witness: the amended theorem applied to empty, whitespace-only
and brace-containing-but-invalid inputs. -/
theorem C2_witness :
    runCycle initialPageState (Except.ok "") =
      { tickStart initialPageState with
        error := some routeNoJsonMsg, loading := false } ∧
    runCycle initialPageState (Except.ok "   ") =
      { tickStart initialPageState with
        error := some routeNoJsonMsg, loading := false } ∧
    runCycle initialPageState (Except.ok "x\x7boops") =
      { clearOnParseFailure (tickStart initialPageState) with loading := false } :=
  ⟨(C2_failure_modes initialPageState "").1 rfl,
   (C2_failure_modes initialPageState "   ").1 rfl,
   (C2_failure_modes initialPageState "x\x7boops").2.1
     (['{', 'o', 'o', 'p', 's']) rfl rfl⟩

/-! ## Claim C3 -/

/-- C3 counterexample: appending the delta `[(t2,110),(t3,108)]` to the
Series `[(t1,100),(t2,105)]` yields exactly the delta — the point
`(t1,100)` is dropped, not retained as insert-or-replace would demand. -/
theorem C3_counterexample :
    (parseOutput stateWithSeries rawDelta).history =
      JVal.arr [historyPointJson "t2" 110, historyPointJson "t3" 108] ∧
    JVal.arr [historyPointJson "t2" 110, historyPointJson "t3" 108] ≠
      JVal.arr [historyPointJson "t1" 100, historyPointJson "t2" 110,
        historyPointJson "t3" 108] :=
  ⟨rfl, by simp [historyPointJson]⟩

/-- C3 (amended): the accumulator replaces the Series wholesale: on a
successful parse whose payload carries a truthy `history` value, the
stored Series becomes exactly that delta, independent of the previous
Series; points whose timestamps are absent from the delta are lost. -/
theorem C3_replacement (st : PageState) (output : String)
    (fields : List (String × JVal)) (delta : JVal)
    (h1 : jsonParse output = some (JVal.obj fields))
    (h2 : jsLookup fields "history" = some delta)
    (h3 : jsTruthy delta = true) :
    (parseOutput st output).history = delta := by
  simp only [parseOutput, h1, jsMember, h2, jsOrDefault, h3]
  simp [h3]

/-- C3 witness: the amended theorem applied to the example delta. -/
theorem C3_witness :
    (parseOutput stateWithSeries rawDelta).history =
      JVal.arr [historyPointJson "t2" 110, historyPointJson "t3" 108] :=
  C3_replacement stateWithSeries rawDelta
    [("history", JVal.arr [historyPointJson "t2" 110, historyPointJson "t3" 108])]
    (JVal.arr [historyPointJson "t2" 110, historyPointJson "t3" 108]) rfl rfl rfl

/-! ## Claim C4 -/

/-- C4 counterexample: from the initial state (whose first cycle is
already loading), two ticks with zero delay between them and no
completion in between issue two Adapter invocations, not one. -/
theorem C4_counterexample :
    (schedTick (schedTick initialSchedState)).invocations = 2 ∧
    (schedTick (schedTick initialSchedState)).inFlight = 2 ∧
    (schedTick (schedTick initialSchedState)).invocations ≠ 1 :=
  ⟨rfl, rfl, by decide⟩

/-- C4 (amended): the scheduler has no overlap guard: a tick issues an
Adapter invocation even while a cycle is running (`loading` true), so
ticks are never dropped and invocations accumulate one per tick. -/
theorem C4_no_overlap_guard (s : SchedState) (_h : s.page.loading = true) :
    (schedTick s).invocations = s.invocations + 1 ∧
    (schedTick s).inFlight = s.inFlight + 1 ∧
    (schedTick s).page.loading = true :=
  ⟨rfl, rfl, rfl⟩

/-- C4 witness: the amended theorem applied to a state with one cycle
already in flight. -/
theorem C4_witness :
    (schedTick (schedTick initialSchedState)).invocations =
      (schedTick initialSchedState).invocations + 1 :=
  (C4_no_overlap_guard (schedTick initialSchedState) rfl).1

/-! ## Claim C5 -/

/-- C5 counterexample: a hard parse failure clears the previously
displayed Series instead of leaving it untouched. -/
theorem C5_counterexample :
    (runCycle stateWithSeries (Except.ok "x\x7bbad")).error = some parseFailMsg ∧
    (runCycle stateWithSeries (Except.ok "x\x7bbad")).history = JVal.arr [] ∧
    stateWithSeries.history ≠ JVal.arr [] :=
  ⟨rfl, rfl, by simp [stateWithSeries, historyPointJson, initialPageState]⟩

/-- C5 (amended): on Adapter failure the failure message is recorded,
every display field is left unchanged and loading clears (the next tick
retries); but on hard parse failure, while the failure is recorded and
loading clears, the prior snapshot fields and Series are cleared to
their empty values — only the trade history is retained. -/
theorem C5_error_paths (st : PageState) (msg : String) (raw : String)
    (cs : List Char) (hm : msg ≠ "")
    (h1 : firstBraceSuffix raw.data = some cs)
    (h2 : jsonParse (String.mk cs) = none) :
    ((runCycle st (Except.error msg)).reasoning = st.reasoning ∧
     (runCycle st (Except.error msg)).decisions = st.decisions ∧
     (runCycle st (Except.error msg)).portfolioSummary = st.portfolioSummary ∧
     (runCycle st (Except.error msg)).portfolioPositions = st.portfolioPositions ∧
     (runCycle st (Except.error msg)).history = st.history ∧
     (runCycle st (Except.error msg)).tradeHistory = st.tradeHistory ∧
     (runCycle st (Except.error msg)).error = some msg ∧
     (runCycle st (Except.error msg)).loading = false) ∧
    ((runCycle st (Except.ok raw)).history = JVal.arr [] ∧
     (runCycle st (Except.ok raw)).reasoning = JVal.str "" ∧
     (runCycle st (Except.ok raw)).tradeHistory = st.tradeHistory ∧
     (runCycle st (Except.ok raw)).error = some parseFailMsg ∧
     (runCycle st (Except.ok raw)).loading = false) := by
  constructor
  · simp [runCycle, routePOST, completeFetch, tickStart, hm]
  · simp [runCycle, routePOST, h1, completeFetch, parseOutput, h2,
      clearOnParseFailure, tickStart]

/-- C5 witness: the amended theorem applied to a concrete Adapter
failure and a concrete parse failure. -/
theorem C5_witness :
    (runCycle initialPageState (Except.error "boom")).history =
      initialPageState.history ∧
    (runCycle initialPageState (Except.ok "x\x7bbad")).error =
      some parseFailMsg := by
  have h := C5_error_paths initialPageState "boom" "x\x7bbad"
    (['{', 'b', 'a', 'd']) (by decide) rfl rfl
  exact ⟨h.1.2.2.2.2.1, h.2.2.2.2.1⟩

/-! ## Claim C6 -/

/-- C6: prepending diagnostic text containing no brace before the JSON
payload does not change the result of extraction: the route takes the
substring from the first brace, which such a prefix does not move. -/
theorem C6_prefix_ignored (st : PageState) (p j : String)
    (h : ∀ c ∈ p.data, c ≠ '{') :
    runCycle st (Except.ok (p ++ j)) = runCycle st (Except.ok j) := by
  simp only [runCycle, routePOST, String.data_append,
    firstBraceSuffix_append _ _ h]

/-- C6 witness: the specification's example, a warm-up line before the
object, recovers `reasoning = "ok"`. -/
theorem C6_witness :
    runCycle initialPageState
        (Except.ok ("warming up...\n" ++
          "\x7b\"reasoning\":\"ok\",\"decisions\":[]\x7d")) =
      runCycle initialPageState
        (Except.ok "\x7b\"reasoning\":\"ok\",\"decisions\":[]\x7d") ∧
    (runCycle initialPageState
        (Except.ok ("warming up...\n" ++
          "\x7b\"reasoning\":\"ok\",\"decisions\":[]\x7d"))).reasoning =
      JVal.str "ok" :=
  ⟨C6_prefix_ignored initialPageState "warming up...\n"
     "\x7b\"reasoning\":\"ok\",\"decisions\":[]\x7d" (by decide),
   by rfl⟩

/-! ## Claim C7 -/

/-- C7: for every date-parse interpretation, every clock value and every
`n`, the last-n-hours window keeps exactly the points of the Series
whose timestamp parses to an instant at or after `now` minus `n` hours
(the boundary instant included, strictly older points excluded); the
window is a sublist of the Series (the Series itself is not mutated);
the code's `'72h'` range is the `n = 72` instance; and the `all` range
returns the full Series. -/
theorem C7_window (jsDate : String → Option Int) (now : Int) (n : Nat)
    (history : List HistoryPoint) :
    (∀ point, point ∈ windowLastNHours jsDate now n history ↔
      point ∈ history ∧
        ∃ t, jsDate point.timestamp = some t ∧ now - n * 60 * 60 * 1000 ≤ t) ∧
    (windowLastNHours jsDate now n history).Sublist history ∧
    filteredHistory jsDate now TimeRange.h72 history =
      windowLastNHours jsDate now 72 history ∧
    filteredHistory jsDate now TimeRange.all history = history := by
  refine ⟨?_, List.filter_sublist _, rfl, rfl⟩
  intro point
  simp only [windowLastNHours, List.mem_filter]
  cases hjd : jsDate point.timestamp <;> simp [hjd]

/-- C7 witness: a point exactly at the boundary `now - 72h` is kept by
the 72-hour window and by the full view. -/
theorem C7_witness :
    (⟨"boundary", 100⟩ : HistoryPoint) ∈
      windowLastNHours (fun s => if s = "boundary" then some 0 else none)
        (72 * 60 * 60 * 1000) 72 [⟨"boundary", 100⟩] ∧
    filteredHistory (fun s => if s = "boundary" then some 0 else none)
        (72 * 60 * 60 * 1000) TimeRange.all [⟨"boundary", 100⟩] =
      [⟨"boundary", 100⟩] := by
  have h := C7_window (fun s => if s = "boundary" then some 0 else none)
    (72 * 60 * 60 * 1000) 72 [⟨"boundary", 100⟩]
  exact ⟨(h.1 ⟨"boundary", 100⟩).2 ⟨by decide, 0, rfl, by decide⟩, h.2.2.2⟩

/-! ## Claim C8 -/

/-- C8: the chart transform keeps the input's order (point `i` of the
dataset is point `i` of the input), annotates each adjacent pair with
`up` exactly when the value strictly increases, `down` exactly when it
strictly decreases and `flat` exactly when the values are equal,
produces zero segments for inputs shorter than two points, and on the
specification's example yields `[up, flat, down]`. -/
theorem C8_render (jsDate : String → Option Int) (data : List HistoryPoint) :
    (data.length < 2 → renderSegments data = []) ∧
    (∀ p q rest, renderSegments (p :: q :: rest) =
      segmentTrend p.value q.value :: renderSegments (q :: rest)) ∧
    (∀ y1 y2 : ℚ, (segmentTrend y1 y2 = Trend.up ↔ y1 < y2) ∧
      (segmentTrend y1 y2 = Trend.down ↔ y2 < y1) ∧
      (segmentTrend y1 y2 = Trend.flat ↔ y1 = y2)) ∧
    ((chartPoints jsDate data).length = data.length ∧
      ∀ i : Nat, (chartPoints jsDate data)[i]? =
        (data[i]?).map (fun point => (jsDate point.timestamp, point.value))) ∧
    renderSegments [⟨"t1", 100⟩, ⟨"t2", 105⟩, ⟨"t3", 105⟩, ⟨"t4", 90⟩] =
      [Trend.up, Trend.flat, Trend.down] := by
  refine ⟨?_, fun p q rest => rfl, ?_,
    ⟨by simp [chartPoints], fun i => by simp [chartPoints]⟩, by decide⟩
  · intro h
    match data, h with
    | [], _ => rfl
    | [x], _ => rfl
  · intro y1 y2
    unfold segmentTrend
    split_ifs with h1 h2
    · simp [h1, h1.ne, lt_asymm h1]
    · simp [h1, h2, h2.ne']
    · have heq : y1 = y2 := le_antisymm (not_lt.1 h2) (not_lt.1 h1)
      simp [h1, h2, heq]

/-- C8 witness: a single-point series renders zero segments, and the
example series renders `[up, flat, down]`. -/
theorem C8_witness :
    renderSegments [(⟨"t0", 1⟩ : HistoryPoint)] = [] ∧
    renderSegments [⟨"t1", 100⟩, ⟨"t2", 105⟩, ⟨"t3", 105⟩, ⟨"t4", 90⟩] =
      [Trend.up, Trend.flat, Trend.down] :=
  ⟨(C8_render (fun _ => none) [(⟨"t0", 1⟩ : HistoryPoint)]).1 (by decide),
   (C8_render (fun _ => none) []).2.2.2.2⟩

/-! ## Claim C9 -/

/-- C9: when the engine run succeeds and its output contains a brace,
the trade endpoint responds with success carrying exactly the substring
from the first brace to end-of-text, without checking that it is valid
JSON — concretely, it accepts the invalid payload `\x7boops`, which the
page parser then rejects with a recorded parse error. -/
theorem C9_route_extraction (raw : String) (cs : List Char)
    (h : firstBraceSuffix raw.data = some cs) :
    routePOST (Except.ok raw) = Except.ok (String.mk cs) ∧
    (routePOST (Except.ok "\x7boops") = Except.ok "\x7boops" ∧
     jsonParse "\x7boops" = none ∧
     (runCycle initialPageState (Except.ok "\x7boops")).error =
       some parseFailMsg) := by
  refine ⟨?_, rfl, rfl, rfl⟩
  simp only [routePOST, h]

/-- C9 witness: a log line followed by a JSON object is trimmed to the
substring starting at the brace. -/
theorem C9_witness :
    routePOST (Except.ok "log: starting\x7b\"a\":1\x7d") =
      Except.ok "\x7b\"a\":1\x7d" :=
  (C9_route_extraction "log: starting\x7b\"a\":1\x7d"
    ("\x7b\"a\":1\x7d".data) rfl).1

/-! ## Claim C10 -/

/-- C10: a history point whose timestamp does not parse as a date is
excluded from the 72-hour window for every clock value (its comparison
against the cutoff is false), yet included in the `all` view, so it can
appear in the full view but in no bounded window. -/
theorem C10_invalid_timestamp (jsDate : String → Option Int) (now : Int)
    (history : List HistoryPoint) (point : HistoryPoint)
    (h1 : point ∈ history)
    (h2 : jsDate point.timestamp = none) :
    point ∉ filteredHistory jsDate now TimeRange.h72 history ∧
    point ∈ filteredHistory jsDate now TimeRange.all history := by
  constructor
  · intro hmem
    have hpred := (List.mem_filter.1 hmem).2
    simp [h2] at hpred
  · exact h1

/-- C10 witness: a point with an unparseable timestamp is dropped by the
72-hour window and kept by the full view. -/
theorem C10_witness :
    (⟨"not-a-date", 1⟩ : HistoryPoint) ∉
      filteredHistory (fun _ => none) 0 TimeRange.h72 [⟨"not-a-date", 1⟩] ∧
    (⟨"not-a-date", 1⟩ : HistoryPoint) ∈
      filteredHistory (fun _ => none) 0 TimeRange.all [⟨"not-a-date", 1⟩] :=
  C10_invalid_timestamp (fun _ => none) 0 [⟨"not-a-date", 1⟩]
    ⟨"not-a-date", 1⟩ (by decide) rfl

end StockThink
